import Mathlib

/-!
Shallow embedding of the triko-services persistence layer.

The repository wraps an asynchronous key-value backend (AsyncStorage) behind a
`StorageService` class (src/storage-service/index.js) that persists *stores*
(JSON objects under keys `store_{name}`) and *entities* (JSON arrays of records
under keys `entity_{name}`), and a `SessionService` (src/session-service/index.js)
that caches one store in memory.

Modelling decisions, stated once here:

* JSON documents are modelled by a three-layer value type (`Prim`, `JVal`,
  `Doc`): primitives, elements of an entity collection, and whole stored
  documents.  Nesting deeper than records-with-primitive-fields never occurs in
  the operations the service performs, so the layers cap it.
* AsyncStorage round-trips values through `JSON.stringify`/`JSON.parse`, which
  is the identity on the documents modelled here, so the backend maps keys
  directly to `Doc`s (`none` = key absent, which `getItem` reports as `null`).
* JavaScript's `JSON.parse` coerces its argument to a string.  The three
  argument shapes that occur in this code are captured by `JsArg`:
  `undefined` (the resolution value of `AsyncStorage.setItem`, whose coercion
  "undefined" is not valid JSON and raises a SyntaxError), `null` (the
  `getItem` result for an absent key, whose coercion "null" parses to JSON
  null), and a stored serialization (which parses back to the document).
* `uuid()` is an external generator; the identifier it produces is passed to
  `addRecord`/`initEntity` as an explicit argument `u`.
* Every stateful operation returns its result together with the backend state
  after the call, because a thrown error does not undo writes already made
  (`try { ... } catch (e) { throw e; }` blocks in the source re-throw
  unchanged and are modelled as the identity on errors).
-/

namespace Triko

/-- A JSON/JavaScript primitive value.  JavaScript strict equality `===` on
primitives is value equality, which `DecidableEq` provides. -/
inductive Prim where
  | null
  | bool (b : Bool)
  | num (n : Int)
  | str (s : String)
deriving DecidableEq, Repr

/-- An element of a stored entity collection: a record object with primitive
fields, a nested array (the service only ever stores the empty one, pushed by
`initEntity`), or a bare primitive. -/
inductive JVal where
  | prim (p : Prim)
  | arr (elems : List Prim)
  | obj (fields : List (String × Prim))
deriving DecidableEq, Repr

/-- A complete JSON document as persisted under one backend key: a store
object, an entity collection (array of `JVal`), or a primitive. -/
inductive Doc where
  | prim (p : Prim)
  | arr (elems : List JVal)
  | obj (fields : List (String × Prim))
deriving DecidableEq, Repr

/-- Errors a call can reject with: `syntaxError` from `JSON.parse`,
`typeError` from using a value against its shape (spreading a non-iterable,
calling an array method on a non-array, reading a property of `null`),
`error msg` for `throw new Error(msg)`, and `thrown msg` for throwing a bare
string (`deleteRecord` does `throw 'Record does not exists'`). -/
inductive JsError where
  | syntaxError
  | typeError (msg : String)
  | error (msg : String)
  | thrown (msg : String)
deriving DecidableEq, Repr

instance {ε α : Type} [DecidableEq ε] [DecidableEq α] :
    DecidableEq (Except ε α) := fun a b =>
  match a, b with
  | .error e₁, .error e₂ =>
    if h : e₁ = e₂ then .isTrue (congrArg Except.error h)
    else .isFalse fun hh => h (Except.error.inj hh)
  | .ok v₁, .ok v₂ =>
    if h : v₁ = v₂ then .isTrue (congrArg Except.ok h)
    else .isFalse fun hh => h (Except.ok.inj hh)
  | .error _, .ok _ => .isFalse fun hh => Except.noConfusion hh
  | .ok _, .error _ => .isFalse fun hh => Except.noConfusion hh

/-- The argument shapes `JSON.parse` receives in this codebase. -/
inductive JsArg where
  | undef
  | null
  | json (d : Doc)
deriving DecidableEq, Repr

/-- JSON.parse: coerces its argument to a string and parses it.
`String(undefined) = "undefined"` is not valid JSON, so parsing the void
return of `AsyncStorage.setItem` raises a SyntaxError; `String(null) = "null"`
parses to JSON null; a stored serialization parses back to its document. -/
def jsonParse : JsArg → Except JsError Doc
  | .undef => .error .syntaxError
  | .null => .ok (.prim .null)
  | .json d => .ok d

/-- JavaScript truthiness of a primitive (`NaN` is not modelled). -/
def jsTruthyPrim : Prim → Bool
  | .null => false
  | .bool b => b
  | .num n => n != 0
  | .str s => s != ""

/-- Truthiness of a possibly-undefined value (`none` models `undefined`). -/
def jsTruthyOpt : Option Prim → Bool
  | none => false
  | some p => jsTruthyPrim p

/-- Falsiness of a parsed document: arrays and objects are always truthy in
JavaScript (even when empty); primitives follow `jsTruthyPrim`. -/
def jsFalsyDoc : Doc → Bool
  | .prim p => !jsTruthyPrim p
  | .arr _ => false
  | .obj _ => false

/-- A JavaScript object with primitive fields, as an association list.  A
JavaScript object has at most one binding per key; lookups take the first. -/
abbrev Obj := List (String × Prim)

/-- A criteria mapping passed to `findAll`/`filterData`: field name to the
primitive value it must equal. -/
abbrev Criteria := List (String × Prim)

/-- Property read `o[key]` on an object: the bound value, or `none`
(JavaScript `undefined`) when the key is absent. -/
def objGet : Obj → String → Option Prim
  | [], _ => none
  | f :: rest, key => if f.1 = key then some f.2 else objGet rest key

/-- Property write `o[key] = v` on an object: overwrites an existing binding
in place, otherwise appends the new binding (JavaScript insertion order). -/
def objSet (fields : Obj) (key : String) (v : Prim) : Obj :=
  if (objGet fields key).isSome then
    fields.map fun f => if f.1 = key then (key, v) else f
  else
    fields ++ [(key, v)]

/-- Object spread `{...old, ...new}`: old keys first (values overridden by
`new` where present), then the keys only `new` has, in their order. -/
def mergeObj (old new : Obj) : Obj :=
  (old.map fun f => (f.1, (objGet new f.1).getD f.2))
  ++ new.filter fun f => (objGet old f.1).isNone

/-- Property read `record[key]` on a collection element.  On a record object
this is field lookup; on a primitive or on an array under a non-index key it
is `undefined` (the only array the service stores is the empty one, whose
`length` property no specified operation reads). -/
def jsIndex (record : JVal) (key : String) : Option Prim :=
  match record with
  | .obj fields => objGet fields key
  | _ => none

/-- The asynchronous key-value backend: serialized documents keyed by name.
`none` models an absent key. -/
abbrev Backend := String → Option Doc

/-- `AsyncStorage.getItem`: the stored serialization, or `null` when absent. -/
def getItem (σ : Backend) (key : String) : Option Doc := σ key

/-- The raw `getItem` result as a `JSON.parse` argument. -/
def rawOfItem : Option Doc → JsArg
  | some d => .json d
  | none => .null

/-- `AsyncStorage.setItem`: writes the serialized document; resolves to
`undefined`. -/
def setItem (σ : Backend) (key : String) (d : Doc) : Backend :=
  fun k => if k = key then some d else σ k

/-- `getEntityName(entityName, isStore)`: the physical backend key, prefixed
with the `STORE_PREFIX`/`ENTITY_PREFIX` constants `"store"`/`"entity"`. -/
def getEntityName (entityName : String) (isStore : Bool := false) : String :=
  (if isStore then "store" else "entity") ++ "_" ++ entityName

/-- `getStore(entity)`: reads the store key; a present value (a non-empty
serialization, hence truthy) is parsed and returned, an absent one (`null`,
falsy) yields `false`, modelled as `none`. -/
def getStore (σ : Backend) (entity : String) : Except JsError (Option Doc) :=
  let entityName := getEntityName entity true
  match getItem σ entityName with
  | some d => (jsonParse (.json d)).map some
  | none => .ok none

/-- `initStore(entity, defaultValue = {})`: writes the serialized default,
then parses the `undefined` resolution value of `setItem` — the write lands
but the call itself rejects with a SyntaxError. -/
def initStore (σ : Backend) (entity : String) (defaultValue : Doc := .obj []) :
    Except JsError Doc × Backend :=
  let entityName := getEntityName entity true
  let σ' := setItem σ entityName defaultValue
  (jsonParse .undef, σ')

/-- `setStore(entity, values = {})`: identical shape to `initStore` — the
write lands, then `JSON.parse(undefined)` rejects the call. -/
def setStore (σ : Backend) (entity : String) (values : Doc := .obj []) :
    Except JsError Doc × Backend :=
  let entityName := getEntityName entity true
  let σ' := setItem σ entityName values
  (jsonParse .undef, σ')

/-- One criteria check inside `filterData`'s `forEach`: `isValid` survives
key `key` iff `record[key] !== criteria[key]` is false. -/
def recordMatches (record : JVal) (criteria : Criteria) : Bool :=
  (criteria.map Prod.fst).all fun key =>
    decide (jsIndex record key = objGet criteria key)

/-- `filterData(data, criteria)`: `Object.keys(criteria)` is an array, always
truthy, so the `if (!criteriaKeys) return data` branch is dead; then
`[...data]` copies an array but raises a TypeError when `data` is not
iterable (`null` for an absent collection, or a plain object); the copy is
filtered by the conjunctive strict-equality check.  (A bare string would be
iterable in JavaScript, but no specified operation stores one under an entity
key.) -/
def filterData (data : Doc) (criteria : Criteria) : Except JsError (List JVal) :=
  match data with
  | .arr elems => .ok (elems.filter fun record => recordMatches record criteria)
  | _ => .error (.typeError "data is not iterable")

/-- `getData(entityName, criteria = false)`: reads and parses the entity key;
with a criteria object it pipes the parse through `filterData`, otherwise it
returns the parsed document (JSON `null` when the key is absent). -/
def getData (σ : Backend) (entityName : String)
    (criteria : Option Criteria := none) : Except JsError Doc :=
  let storageName := getEntityName entityName false
  let raw := rawOfItem (getItem σ storageName)
  match criteria with
  | some c =>
    match jsonParse raw with
    | .error e => .error e
    | .ok parsed =>
      match filterData parsed c with
      | .error e => .error e
      | .ok resultData => .ok (.arr resultData)
  | none => jsonParse raw

/-- `getAll(entity)`: the parsed records when `Array.isArray` holds, and the
sentinel `false` (modelled `none`) otherwise — including when absent, since
an absent key parses to JSON null. -/
def getAll (σ : Backend) (entity : String) :
    Except JsError (Option (List JVal)) :=
  match getData σ entity none with
  | .error e => .error e
  | .ok (.arr records) => .ok (some records)
  | .ok _ => .ok none

/-- `persistData(entity, data = {})`: serializes and writes the document
under the entity key, returning `true`. -/
def persistData (σ : Backend) (entity : String) (data : Doc := .obj []) :
    Bool × Backend :=
  (true, setItem σ (getEntityName entity false) data)

/-- `(await this.getData(entity)) || []`: a falsy parse result (JSON null for
an absent collection) is replaced by an empty array. -/
def orEmptyArray (parsed : Doc) : Doc :=
  if jsFalsyDoc parsed then .arr [] else parsed

/-- Elements of the current collection; calling an array method (`push`,
`find`, `filter`) on a truthy non-array raises a TypeError. -/
def asArray : Doc → Except JsError (List JVal)
  | .arr elems => .ok elems
  | _ => .error (.typeError "value is not an array")

/-- `data.ui_code = uuid()`: on a record object this writes the field; on an
array it creates a named (non-index) property that `JSON.stringify` drops, so
the serialized value — which this model tracks — is unchanged; no specified
operation passes a primitive. -/
def setUiCode (u : String) : JVal → JVal
  | .obj fields => .obj (objSet fields "ui_code" (.str u))
  | v => v

/-- `addRecord(entity, data = {})`: assigns the generated identifier `u` to
`data`, reads the current collection (absent treated as empty), appends the
record, persists the whole collection and returns the stored record. -/
def addRecord (σ : Backend) (entity : String) (u : String)
    (data : JVal := .obj []) : Except JsError JVal × Backend :=
  let stored := setUiCode u data
  match getData σ entity none with
  | .error e => (.error e, σ)
  | .ok parsed =>
    match asArray (orEmptyArray parsed) with
    | .error e => (.error e, σ)
    | .ok records =>
      let result := persistData σ entity (.arr (records ++ [stored]))
      (.ok stored, result.2)

/-- `findAll(entity, criteria = {})`: the `getData` result with the `|| []`
fallback.  When `getData` succeeds under a criteria object it returns the
array built by `filterData` — and an array, even empty, is truthy — so the
fallback branch is unreachable and the non-array case below never fires. -/
def findAll (σ : Backend) (entity : String) (criteria : Criteria := []) :
    Except JsError (List JVal) :=
  match getData σ entity (some criteria) with
  | .error e => .error e
  | .ok (.arr records) => .ok records
  | .ok _ => .ok []

/-- `currentRecords.find` with the `recordIndex` side channel: index and
value of the first element whose `ui_code` property is strictly equal to the
sought value, `none` when no element matches. -/
def findUi (code : Option Prim) : List JVal → Option (Nat × JVal)
  | [] => none
  | r :: rs =>
    if jsIndex r "ui_code" = code then some (0, r)
    else (findUi code rs).map fun p => (p.1 + 1, p.2)

/-- Spread of the found record in `{...currentData, ...newData}`: a record
object contributes its fields; `undefined` (no match) contributes none.  A
non-object can not be the spread base here because only objects carry the
`ui_code` property that the search matched. -/
def spreadFields : Option JVal → Obj
  | some (.obj fields) => fields
  | _ => []

/-- `updateRecord(entity, newData = {})`: throws `Error('Record does not
exists')` when `newData.ui_code` is falsy; otherwise reads the collection
(absent treated as empty), finds the record matching `ui_code`, merges
`newData` over it and persists.  When no record matches, `recordIndex` stays
`null` and `currentRecords[null] = ...` creates a named property on the array
that `JSON.stringify` drops, so the persisted collection is the original one
and the call still succeeds. -/
def updateRecord (σ : Backend) (entity : String) (newData : Obj := []) :
    Except JsError Bool × Backend :=
  let uiVal := objGet newData "ui_code"
  if !jsTruthyOpt uiVal then
    (.error (.error "Record does not exists"), σ)
  else
    match getData σ entity none with
    | .error e => (.error e, σ)
    | .ok parsed =>
      match asArray (orEmptyArray parsed) with
      | .error e => (.error e, σ)
      | .ok records =>
        match findUi uiVal records with
        | some iv =>
          let merged := mergeObj (spreadFields (some iv.2)) newData
          let result := persistData σ entity (.arr (records.set iv.1 (.obj merged)))
          (.ok result.1, result.2)
        | none =>
          let result := persistData σ entity (.arr records)
          (.ok result.1, result.2)

/-- `deleteRecord(entity, ui_code)`: throws the bare string `'Record does not
exists'` when the identifier is falsy; otherwise reads the collection (absent
treated as empty), keeps every record whose `ui_code` property is not
strictly equal to the identifier, and persists the remainder. -/
def deleteRecord (σ : Backend) (entity : String) (ui_code : Prim) :
    Except JsError Bool × Backend :=
  if !jsTruthyPrim ui_code then
    (.error (.thrown "Record does not exists"), σ)
  else
    match getData σ entity none with
    | .error e => (.error e, σ)
    | .ok parsed =>
      match asArray (orEmptyArray parsed) with
      | .error e => (.error e, σ)
      | .ok records =>
        let remaining := records.filter fun record =>
          !decide (jsIndex record "ui_code" = some ui_code)
        let result := persistData σ entity (.arr remaining)
        (.ok result.1, result.2)

/-- `initEntity(entity)`: delegates to `addRecord(entity, [])`, passing the
empty array as the record to insert. -/
def initEntity (σ : Backend) (entity : String) (u : String) :
    Except JsError JVal × Backend :=
  addRecord σ entity u (.arr [])

/-- The `session` field of the `SessionService` instance before any
successful `initialize` or `read`: the class initializes it to `null`,
modelled as `none`. -/
def initialSession : Option Doc := none

/-- Property read `d[key]` on the cached session document. -/
def docIndex (d : Doc) (key : String) : Option Prim :=
  match d with
  | .obj fields => objGet fields key
  | _ => none

/-- `SessionService.get(key, defaultValue = null)`: evaluates
`this.session[key] || defaultValue`.  Property access on a `null` cache
raises a TypeError; otherwise a falsy (or absent) field yields the default. -/
def sessionGet (session : Option Doc) (key : String)
    (defaultValue : Prim := .null) : Except JsError Prim :=
  match session with
  | none => .error (.typeError "Cannot read properties of null")
  | some d =>
    match docIndex d key with
    | some p => .ok (if jsTruthyPrim p then p else defaultValue)
    | none => .ok defaultValue

end Triko

namespace Triko

theorem objGet_append (l₁ l₂ : Obj) (k : String) :
    objGet (l₁ ++ l₂) k = (objGet l₁ k).or (objGet l₂ k) := by
  induction l₁ with
  | nil => simp [objGet, Option.or]
  | cons f rest ih =>
    by_cases h : f.1 = k <;> simp [objGet, h, ih, Option.or]

theorem objGet_map_merge (old new : Obj) (k : String) :
    objGet (old.map fun f => (f.1, (objGet new f.1).getD f.2)) k
      = (objGet old k).map fun v => (objGet new k).getD v := by
  induction old with
  | nil => simp [objGet]
  | cons f rest ih =>
    by_cases h : f.1 = k <;> simp [objGet, h, ih]

theorem objGet_filter_keys (old new : Obj) (k : String)
    (h : objGet old k = none) :
    objGet (new.filter fun f => (objGet old f.1).isNone) k = objGet new k := by
  induction new with
  | nil => simp
  | cons f rest ih =>
    by_cases hk : f.1 = k
    · rw [List.filter_cons]
      simp [hk, h, objGet]
    · by_cases hp : (objGet old f.1).isNone <;>
        simp [List.filter_cons, hk, hp, objGet, ih]

theorem objGet_mergeObj (old new : Obj) (k : String) :
    objGet (mergeObj old new) k = (objGet new k).or (objGet old k) := by
  unfold mergeObj
  rw [objGet_append, objGet_map_merge]
  rcases h : objGet old k with _ | v
  · rw [objGet_filter_keys old new k h]
    rcases objGet new k with _ | w <;> simp [Option.or]
  · rcases objGet new k with _ | w <;> simp [Option.or]

theorem objGet_map_set (fields : Obj) (k : String) (v : Prim)
    (h : (objGet fields k).isSome) :
    objGet (fields.map fun f => if f.1 = k then (k, v) else f) k = some v := by
  induction fields with
  | nil => simp [objGet] at h
  | cons f rest ih =>
    by_cases hf : f.1 = k
    · simp [objGet, hf]
    · simp [objGet, hf] at h ⊢
      exact ih h

theorem objGet_objSet_self (fields : Obj) (k : String) (v : Prim) :
    objGet (objSet fields k v) k = some v := by
  unfold objSet
  by_cases h : (objGet fields k).isSome
  · simpa [h] using objGet_map_set fields k v h
  · rw [if_neg h, objGet_append,
      Option.not_isSome_iff_eq_none.mp h]
    simp [objGet, Option.or]

theorem findUi_first (code : Prim) (pre : List JVal) (r : JVal)
    (post : List JVal)
    (hpre : ∀ x ∈ pre, jsIndex x "ui_code" ≠ some code)
    (hr : jsIndex r "ui_code" = some code) :
    findUi (some code) (pre ++ r :: post) = some (pre.length, r) := by
  induction pre with
  | nil => simp [findUi, hr]
  | cons a rest ih =>
    have ha := hpre a (by simp)
    simp [findUi, ha, ih fun x hx => hpre x (by simp [hx])]

theorem set_append_cons (pre : List JVal) (x y : JVal) (post : List JVal) :
    (pre ++ x :: post).set pre.length y = pre ++ y :: post := by
  induction pre with
  | nil => rfl
  | cons a rest ih =>
    show a :: (rest ++ x :: post).set rest.length y = a :: (rest ++ y :: post)
    rw [ih]

theorem objGet_eq_of_mem_nodup (c : Criteria) (kv : String × Prim)
    (hnd : (c.map Prod.fst).Nodup) (hm : kv ∈ c) :
    objGet c kv.1 = some kv.2 := by
  induction c with
  | nil => cases hm
  | cons f rest ih =>
    rw [List.map_cons, List.nodup_cons] at hnd
    rcases List.mem_cons.mp hm with h | h
    · subst h; simp [objGet]
    · have hne : f.1 ≠ kv.1 := by
        intro he
        exact hnd.1 (he ▸ List.mem_map_of_mem Prod.fst h)
      simp [objGet, hne]
      exact ih hnd.2 h

theorem mem_of_objGet (c : Criteria) (k : String) (v : Prim)
    (h : objGet c k = some v) : (k, v) ∈ c := by
  induction c with
  | nil => simp [objGet] at h
  | cons f rest ih =>
    by_cases hf : f.1 = k
    · simp [objGet, hf] at h
      rcases f with ⟨fk, fv⟩
      simp at hf h
      subst hf; subst h
      exact List.mem_cons_self _ _
    · simp [objGet, hf] at h
      exact List.mem_cons_of_mem _ (ih h)

theorem objGet_isSome_of_key_mem (c : Criteria) (k : String)
    (h : k ∈ c.map Prod.fst) : (objGet c k).isSome := by
  induction c with
  | nil => simp at h
  | cons f rest ih =>
    by_cases hf : f.1 = k
    · simp [objGet, hf]
    · rw [List.map_cons, List.mem_cons] at h
      rcases h with h | h
      · exact absurd h.symm hf
      · simp [objGet, hf]
        exact ih h

theorem recordMatches_true_iff (r : JVal) (c : Criteria)
    (hnd : (c.map Prod.fst).Nodup) :
    recordMatches r c = true ↔ ∀ kv ∈ c, jsIndex r kv.1 = some kv.2 := by
  unfold recordMatches
  rw [List.all_eq_true]
  constructor
  · intro h kv hkv
    have hk := h kv.1 (List.mem_map_of_mem Prod.fst hkv)
    rw [decide_eq_true_eq] at hk
    rw [hk, objGet_eq_of_mem_nodup c kv hnd hkv]
  · intro h key hkey
    rw [decide_eq_true_eq]
    have hs := objGet_isSome_of_key_mem c key hkey
    rcases ho : objGet c key with _ | v
    · rw [ho] at hs; simp at hs
    · exact h (key, v) (mem_of_objGet c key v ho)

end Triko

namespace Triko

/-- C1: the claim fails on the code at an absent collection.  `findAll` on an
entity whose collection is absent from the backend does not return the empty
sequence: `getData` parses the absent value to JSON null and `filterData`
spreads it (`[...data]`), raising a TypeError, both under the empty criteria
mapping and under a non-empty one.  On an existing collection with no match
it does return the empty sequence. -/
theorem findAll_absent_collection_raises :
    findAll (fun _ => none) "todos" []
        = .error (.typeError "data is not iterable")
    ∧ findAll (fun _ => none) "todos" [("done", .bool true)]
        = .error (.typeError "data is not iterable")
    ∧ findAll
        (fun k => if k = "entity_todos"
          then some (.arr [.obj [("done", .bool false)]]) else none)
        "todos" [("done", .bool true)]
        = .ok [] := by
  refine ⟨rfl, rfl, ?_⟩
  decide

/-- C2: the claim fails on the code.  With a patch whose `ui_code` is present
and truthy but matches no record, `updateRecord` does not raise: `find`
leaves `recordIndex` at `null`, the assignment `currentRecords[null]`
creates a named property that serialization drops, and the call persists the
collection unchanged and resolves with `true`. -/
theorem updateRecord_no_match_silently_succeeds :
    (updateRecord
        (fun k => if k = "entity_todos"
          then some (.arr [.obj [("ui_code", .str "a"), ("x", .num 1)]])
          else none)
        "todos" [("ui_code", .str "b"), ("y", .num 2)]).1
      = .ok true
    ∧ ((updateRecord
        (fun k => if k = "entity_todos"
          then some (.arr [.obj [("ui_code", .str "a"), ("x", .num 1)]])
          else none)
        "todos" [("ui_code", .str "b"), ("y", .num 2)]).2) "entity_todos"
      = some (.arr [.obj [("ui_code", .str "a"), ("x", .num 1)]]) := by
  constructor
  · decide
  · decide

/-- C7: the claim fails on the code.  `initEntity` delegates to
`addRecord(entity, [])`, so the empty array is pushed as a single record:
after `initEntity` on an absent collection, `getAll` returns a one-element
sequence containing an empty array, not a sequence of length zero. -/
theorem initEntity_seeds_single_empty_array :
    (initEntity (fun _ => none) "todos" "id-1").1 = .ok (.arr [])
    ∧ getAll ((initEntity (fun _ => none) "todos" "id-1").2) "todos"
        = .ok (some [.arr []])
    ∧ (some [JVal.arr []]).getD [] ≠ ([] : List JVal) := by
  refine ⟨rfl, by decide, by decide⟩

/-- C8: setStore and initStore write the serialized value to the backend and
then `JSON.parse` the `undefined` resolution value of the backend `set` call,
so both always reject with a SyntaxError even though the write landed; a
subsequent `getStore` returns the written value. -/
theorem setStore_initStore_raise_after_write
    (σ : Backend) (name : String) (v : Doc) :
    setStore σ name v
        = (.error .syntaxError, setItem σ (getEntityName name true) v)
    ∧ initStore σ name v
        = (.error .syntaxError, setItem σ (getEntityName name true) v)
    ∧ getStore (setItem σ (getEntityName name true) v) name = .ok (some v) := by
  refine ⟨rfl, rfl, ?_⟩
  simp [getStore, getItem, setItem, jsonParse, Except.map]

/-- C10: before any successful initialize or read the SessionService cache is
the class initializer `session = null`, and `get(key, defaultValue)`
evaluates `this.session[key]`, a property access on `null` that raises a
TypeError instead of returning the default. -/
theorem sessionGet_null_cache_raises (key : String) (defaultValue : Prim) :
    sessionGet initialSession key defaultValue
      = .error (.typeError "Cannot read properties of null") := rfl

end Triko

namespace Triko

/-- C9: deleteRecord on an entity whose collection is absent creates the
collection as an empty sequence as a side effect: before the call `getAll`
returns the sentinel false (modelled `none`), after the call it returns the
empty sequence, even though nothing was deleted. -/
theorem deleteRecord_absent_creates_empty
    (σ : Backend) (entity id : String)
    (habs : σ (getEntityName entity false) = none)
    (hid : id ≠ "") :
    getAll σ entity = .ok none
    ∧ deleteRecord σ entity (.str id)
        = (.ok true, setItem σ (getEntityName entity false) (.arr []))
    ∧ getAll (setItem σ (getEntityName entity false) (.arr [])) entity
        = .ok (some []) := by
  have htr : jsTruthyPrim (.str id) = true := by
    simp [jsTruthyPrim, bne_iff_ne]; exact hid
  refine ⟨?_, ?_, ?_⟩
  · simp [getAll, getData, getItem, rawOfItem, habs, jsonParse]
  · simp [deleteRecord, htr, getData, getItem, rawOfItem, habs, jsonParse,
      orEmptyArray, jsFalsyDoc, asArray, persistData,
      show jsTruthyPrim Prim.null = false from rfl]
  · simp [getAll, getData, getItem, rawOfItem, setItem, jsonParse]

/-- Witness for C9 at a concrete input: empty backend, entity `"todos"`,
identifier `"id-9"`. -/
theorem deleteRecord_absent_creates_empty_witness :
    ((fun _ => none : Backend) (getEntityName "todos" false) = none)
    ∧ ("id-9" : String) ≠ ""
    ∧ getAll (fun _ => none) "todos" = .ok none
    ∧ deleteRecord (fun _ => none) "todos" (.str "id-9")
        = (.ok true, setItem (fun _ => none) (getEntityName "todos" false) (.arr []))
    ∧ getAll (setItem (fun _ => none) (getEntityName "todos" false) (.arr [])) "todos"
        = .ok (some []) :=
  ⟨rfl, by decide,
    (deleteRecord_absent_creates_empty (fun _ => none) "todos" "id-9" rfl
      (by decide)).1,
    (deleteRecord_absent_creates_empty (fun _ => none) "todos" "id-9" rfl
      (by decide)).2.1,
    (deleteRecord_absent_creates_empty (fun _ => none) "todos" "id-9" rfl
      (by decide)).2.2⟩

/-- C4: addRecord writes the generated identifier into the record's ui_code
field, appends the record to the current collection — an absent collection
being treated as empty — and persists the whole collection, returning the
stored record; the returned record's ui_code is present, non-empty when the
generated identifier is non-empty, and distinct from the ui_code of every
record already in the collection when the generated identifier is fresh
(uniqueness rests on the uuid generator, which the code does not
double-check). -/
theorem addRecord_assigns_and_appends
    (σ : Backend) (entity u : String) (fields : Obj) (current : List JVal)
    (hσ : σ (getEntityName entity false) = none ∧ current = []
        ∨ σ (getEntityName entity false) = some (.arr current))
    (hne : u ≠ "")
    (hfresh : ∀ r ∈ current, jsIndex r "ui_code" ≠ some (.str u)) :
    addRecord σ entity u (.obj fields)
        = (.ok (.obj (objSet fields "ui_code" (.str u))),
           setItem σ (getEntityName entity false)
             (.arr (current ++ [.obj (objSet fields "ui_code" (.str u))])))
    ∧ jsIndex (.obj (objSet fields "ui_code" (.str u))) "ui_code"
        = some (.str u)
    ∧ jsTruthyPrim (.str u) = true
    ∧ ∀ r ∈ current, jsIndex r "ui_code"
        ≠ jsIndex (.obj (objSet fields "ui_code" (.str u))) "ui_code" := by
  have hset : jsIndex (JVal.obj (objSet fields "ui_code" (.str u))) "ui_code"
      = some (.str u) := by
    simpa [jsIndex] using objGet_objSet_self fields "ui_code" (.str u)
  refine ⟨?_, hset, ?_, ?_⟩
  · rcases hσ with ⟨h1, h2⟩ | h1
    · subst h2
      simp [addRecord, setUiCode, getData, getItem, rawOfItem, h1, jsonParse,
        orEmptyArray, jsFalsyDoc, jsTruthyPrim, asArray, persistData]
    · simp [addRecord, setUiCode, getData, getItem, rawOfItem, h1, jsonParse,
        orEmptyArray, jsFalsyDoc, asArray, persistData]
  · simp [jsTruthyPrim, bne_iff_ne]; exact hne
  · intro r hr
    rw [hset]
    exact hfresh r hr

/-- Witness for C4 at a concrete input: empty backend, record
`{title: "buy milk"}`, generated identifier `"id-7"`. -/
theorem addRecord_assigns_and_appends_witness :
    ((fun _ => none : Backend) (getEntityName "todos" false) = none
        ∧ ([] : List JVal) = [])
    ∧ ("id-7" : String) ≠ ""
    ∧ addRecord (fun _ => none) "todos" "id-7"
        (.obj [("title", .str "buy milk")])
        = (.ok (.obj (objSet [("title", .str "buy milk")] "ui_code" (.str "id-7"))),
           setItem (fun _ => none) (getEntityName "todos" false)
             (.arr ([] ++ [.obj (objSet [("title", .str "buy milk")] "ui_code"
               (.str "id-7"))])))
    ∧ jsIndex (.obj (objSet [("title", .str "buy milk")] "ui_code" (.str "id-7")))
        "ui_code" = some (.str "id-7") :=
  ⟨⟨rfl, rfl⟩, by decide,
    (addRecord_assigns_and_appends (fun _ => none) "todos" "id-7"
      [("title", .str "buy milk")] [] (Or.inl ⟨rfl, rfl⟩) (by decide)
      (by decide)).1,
    (addRecord_assigns_and_appends (fun _ => none) "todos" "id-7"
      [("title", .str "buy milk")] [] (Or.inl ⟨rfl, rfl⟩) (by decide)
      (by decide)).2.1⟩

/-- C5: on an existing collection, findAll returns exactly the records for
which every field named in the criteria is strictly equal to the criteria
value — a conjunctive equality filter that preserves the collection's order
(the result is a sublist) — and with an empty criteria mapping it returns
every record. -/
theorem findAll_conjunctive_equality_filter
    (σ : Backend) (entity : String) (criteria : Criteria) (records : List JVal)
    (hσ : σ (getEntityName entity false) = some (.arr records))
    (hnd : (criteria.map Prod.fst).Nodup) :
    findAll σ entity criteria
        = .ok (records.filter fun r =>
            decide (∀ kv ∈ criteria, jsIndex r kv.1 = some kv.2))
    ∧ (records.filter fun r =>
        decide (∀ kv ∈ criteria, jsIndex r kv.1 = some kv.2)).Sublist records
    ∧ (criteria = [] → findAll σ entity criteria = .ok records) := by
  have hshape : findAll σ entity criteria
      = .ok (records.filter fun r => recordMatches r criteria) := by
    simp [findAll, getData, getItem, rawOfItem, hσ, jsonParse, filterData]
  have hbridge : (records.filter fun r => recordMatches r criteria)
      = records.filter fun r =>
          decide (∀ kv ∈ criteria, jsIndex r kv.1 = some kv.2) := by
    apply List.filter_congr
    intro r _
    by_cases hp : ∀ kv ∈ criteria, jsIndex r kv.1 = some kv.2
    · rw [(recordMatches_true_iff r criteria hnd).mpr hp, decide_eq_true hp]
    · rw [decide_eq_false hp]
      cases h1 : recordMatches r criteria with
      | false => rfl
      | true => exact absurd ((recordMatches_true_iff r criteria hnd).mp h1) hp
  refine ⟨hshape.trans (by rw [hbridge]), ?_, ?_⟩
  · rw [← hbridge]
    exact List.filter_sublist records
  · intro hc
    subst hc
    rw [hshape]
    congr 1
    apply List.filter_eq_self.mpr
    intro r _
    rfl

/-- Witness for C5 at the spec's scenario: three records with `done` values
true, false, true; the criteria `{done: true}` selects the first and third,
order preserved. -/
theorem findAll_conjunctive_equality_filter_witness :
    ((fun k => if k = "entity_todos" then some (Doc.arr
        [.obj [("ui_code", .str "a"), ("done", .bool true)],
         .obj [("ui_code", .str "b"), ("done", .bool false)],
         .obj [("ui_code", .str "c"), ("done", .bool true)]]) else none : Backend)
      (getEntityName "todos" false) = some (.arr
        [.obj [("ui_code", .str "a"), ("done", .bool true)],
         .obj [("ui_code", .str "b"), ("done", .bool false)],
         .obj [("ui_code", .str "c"), ("done", .bool true)]]))
    ∧ (([("done", Prim.bool true)] : Criteria).map Prod.fst).Nodup
    ∧ findAll (fun k => if k = "entity_todos" then some (Doc.arr
        [.obj [("ui_code", .str "a"), ("done", .bool true)],
         .obj [("ui_code", .str "b"), ("done", .bool false)],
         .obj [("ui_code", .str "c"), ("done", .bool true)]]) else none)
        "todos" [("done", .bool true)]
        = .ok [.obj [("ui_code", .str "a"), ("done", .bool true)],
               .obj [("ui_code", .str "c"), ("done", .bool true)]] := by
  refine ⟨by decide, by decide, ?_⟩
  have h := (findAll_conjunctive_equality_filter
    (fun k => if k = "entity_todos" then some (Doc.arr
        [.obj [("ui_code", .str "a"), ("done", .bool true)],
         .obj [("ui_code", .str "b"), ("done", .bool false)],
         .obj [("ui_code", .str "c"), ("done", .bool true)]]) else none)
    "todos" [("done", .bool true)]
    [.obj [("ui_code", .str "a"), ("done", .bool true)],
     .obj [("ui_code", .str "b"), ("done", .bool false)],
     .obj [("ui_code", .str "c"), ("done", .bool true)]]
    (by decide) (by decide)).1
  rw [h]
  decide

end Triko

namespace Triko

/-- C6: deleteRecord with a non-empty id on an existing collection persists
exactly the records whose ui_code differs from the id (membership
characterization below); when no record matches, the backend is left
entirely unchanged and the call does not fail; and deleting the same id a
second time is a no-op on the backend. -/
theorem deleteRecord_exact_and_idempotent
    (σ : Backend) (entity id : String) (records : List JVal)
    (hσ : σ (getEntityName entity false) = some (.arr records))
    (hid : id ≠ "") :
    deleteRecord σ entity (.str id)
        = (.ok true, setItem σ (getEntityName entity false)
            (.arr (records.filter fun r =>
              !decide (jsIndex r "ui_code" = some (.str id)))))
    ∧ (∀ r, r ∈ records.filter (fun r =>
          !decide (jsIndex r "ui_code" = some (.str id)))
        ↔ r ∈ records ∧ jsIndex r "ui_code" ≠ some (.str id))
    ∧ ((∀ r ∈ records, jsIndex r "ui_code" ≠ some (.str id))
        → setItem σ (getEntityName entity false)
            (.arr (records.filter fun r =>
              !decide (jsIndex r "ui_code" = some (.str id)))) = σ)
    ∧ deleteRecord
        (setItem σ (getEntityName entity false)
          (.arr (records.filter fun r =>
            !decide (jsIndex r "ui_code" = some (.str id)))))
        entity (.str id)
        = (.ok true, setItem σ (getEntityName entity false)
            (.arr (records.filter fun r =>
              !decide (jsIndex r "ui_code" = some (.str id))))) := by
  have htr : jsTruthyPrim (.str id) = true := by
    simp [jsTruthyPrim, bne_iff_ne]; exact hid
  refine ⟨?_, ?_, ?_, ?_⟩
  · simp [deleteRecord, htr, getData, getItem, rawOfItem, hσ, jsonParse,
      orEmptyArray, jsFalsyDoc, asArray, persistData]
  · intro r
    rw [List.mem_filter]
    simp
  · intro hall
    have hfilter : records.filter (fun r =>
        !decide (jsIndex r "ui_code" = some (.str id))) = records :=
      List.filter_eq_self.mpr fun r hr => by simp [hall r hr]
    rw [hfilter]
    funext kk
    by_cases hkk : kk = getEntityName entity false
    · simp [setItem, hkk, hσ]
    · simp [setItem, hkk]
  · have happ : setItem σ (getEntityName entity false)
        (.arr (records.filter fun r =>
          !decide (jsIndex r "ui_code" = some (.str id))))
        (getEntityName entity false)
        = some (.arr (records.filter fun r =>
            !decide (jsIndex r "ui_code" = some (.str id)))) := by
      simp [setItem]
    have hfix : (records.filter fun r =>
          !decide (jsIndex r "ui_code" = some (.str id))).filter
        (fun r => !decide (jsIndex r "ui_code" = some (.str id)))
        = records.filter fun r =>
            !decide (jsIndex r "ui_code" = some (.str id)) :=
      List.filter_eq_self.mpr fun r hr => (List.mem_filter.mp hr).2
    simp only [deleteRecord, htr, Bool.not_true, Bool.false_eq_true, if_false,
      getData, getItem, rawOfItem, happ, jsonParse, orEmptyArray, jsFalsyDoc,
      asArray, persistData, hfix]
    refine congrArg (Prod.mk (Except.ok true)) ?_
    funext kk
    by_cases hkk : kk = getEntityName entity false <;> simp [setItem, hkk]

/-- Witness for C6 at a concrete input: a collection with records `a` and
`b`, deleting id `"a"`. -/
theorem deleteRecord_exact_and_idempotent_witness :
    ((fun k => if k = "entity_todos" then some (Doc.arr
        [.obj [("ui_code", .str "a")], .obj [("ui_code", .str "b")]])
      else none : Backend) (getEntityName "todos" false)
      = some (.arr [.obj [("ui_code", .str "a")], .obj [("ui_code", .str "b")]]))
    ∧ ("a" : String) ≠ ""
    ∧ deleteRecord (fun k => if k = "entity_todos" then some (Doc.arr
        [.obj [("ui_code", .str "a")], .obj [("ui_code", .str "b")]])
      else none) "todos" (.str "a")
        = (.ok true, setItem (fun k => if k = "entity_todos" then some (Doc.arr
            [.obj [("ui_code", .str "a")], .obj [("ui_code", .str "b")]])
          else none) (getEntityName "todos" false)
            (.arr ([.obj [("ui_code", .str "a")],
                    .obj [("ui_code", .str "b")]].filter fun r =>
              !decide (jsIndex r "ui_code" = some (.str "a"))))) :=
  ⟨by decide, by decide,
    (deleteRecord_exact_and_idempotent
      (fun k => if k = "entity_todos" then some (Doc.arr
        [.obj [("ui_code", .str "a")], .obj [("ui_code", .str "b")]])
      else none) "todos" "a"
      [.obj [("ui_code", .str "a")], .obj [("ui_code", .str "b")]]
      (by decide) (by decide)).1⟩

/-- C3: updateRecord on a collection containing a record with the patch's
ui_code (the first such record) replaces it in place by the shallow merge of
the patch over it and persists the whole collection; the merged record takes
the patch value on every field the patch carries and keeps the old value on
every other field. -/
theorem updateRecord_shallow_merge
    (σ : Backend) (entity : String) (pre post : List JVal)
    (fields newData : Obj) (k : Prim)
    (hσ : σ (getEntityName entity false)
        = some (.arr (pre ++ .obj fields :: post)))
    (hfirst : ∀ r ∈ pre, jsIndex r "ui_code" ≠ some k)
    (hk : objGet fields "ui_code" = some k)
    (hnew : objGet newData "ui_code" = some k)
    (htr : jsTruthyPrim k = true) :
    updateRecord σ entity newData
        = (.ok true,
          setItem σ (getEntityName entity false)
            (.arr (pre ++ .obj (mergeObj fields newData) :: post)))
    ∧ ∀ f, objGet (mergeObj fields newData) f
        = (objGet newData f).or (objGet fields f) := by
  constructor
  · have hfind := findUi_first k pre (.obj fields) post hfirst
      (by simpa [jsIndex] using hk)
    simp only [updateRecord, hnew, jsTruthyOpt, htr, Bool.not_true,
      Bool.false_eq_true, if_false, getData, getItem, rawOfItem, hσ,
      jsonParse, orEmptyArray, jsFalsyDoc, Bool.not_false, asArray,
      hfind, spreadFields, persistData, set_append_cons]
  · intro f
    exact objGet_mergeObj fields newData f

/-- Witness for C3 at the spec's example: record
`{ui_code: "a", x: 1, y: 2}` patched with `{ui_code: "a", y: 5}` becomes
`{ui_code: "a", x: 1, y: 5}`. -/
theorem updateRecord_shallow_merge_witness :
    ((fun kk => if kk = "entity_todos" then some (Doc.arr
        [.obj [("ui_code", .str "a"), ("x", .num 1), ("y", .num 2)]])
      else none : Backend) (getEntityName "todos" false)
      = some (.arr ([] ++ .obj [("ui_code", Prim.str "a"), ("x", Prim.num 1),
          ("y", Prim.num 2)] :: [])))
    ∧ updateRecord (fun kk => if kk = "entity_todos" then some (Doc.arr
        [.obj [("ui_code", .str "a"), ("x", .num 1), ("y", .num 2)]])
      else none) "todos" [("ui_code", .str "a"), ("y", .num 5)]
        = (.ok true,
          setItem (fun kk => if kk = "entity_todos" then some (Doc.arr
              [.obj [("ui_code", .str "a"), ("x", .num 1), ("y", .num 2)]])
            else none) (getEntityName "todos" false)
            (.arr ([] ++ .obj (mergeObj
              [("ui_code", .str "a"), ("x", .num 1), ("y", .num 2)]
              [("ui_code", .str "a"), ("y", .num 5)]) :: [])))
    ∧ mergeObj [("ui_code", .str "a"), ("x", .num 1), ("y", .num 2)]
        [("ui_code", .str "a"), ("y", .num 5)]
        = [("ui_code", .str "a"), ("x", .num 1), ("y", .num 5)] := by
  refine ⟨by decide, ?_, by decide⟩
  exact (updateRecord_shallow_merge
    (fun kk => if kk = "entity_todos" then some (Doc.arr
        [.obj [("ui_code", .str "a"), ("x", .num 1), ("y", .num 2)]])
      else none) "todos" [] []
    [("ui_code", .str "a"), ("x", .num 1), ("y", .num 2)]
    [("ui_code", .str "a"), ("y", .num 5)] (.str "a")
    (by decide) (by decide) (by decide) (by decide) (by decide)).1

end Triko
